import Mathlib

/-!
Verification development for the `json-ld-nostd` repository: a shallow
embedding of the JSON-LD expansion pipeline (document loading, context
processing, element expansion, and RDF quad conversion) together with
theorems checking the natural-language specification against the code.

Conventions of the embedding:
* IRIs and blank node identifiers are plain strings (the repository's
  `Vocabulary` abstraction maps interned identifiers to strings; we work
  directly with the string form, so the vocabulary parameter disappears).
* Asynchronous functions become plain functions; the `Loader` collaborator
  becomes a function from IRIs to `Except LoadError RemoteDocument`.
* Fallible Rust functions returning `Result<T, E>` become `Except E T`.
* Recursive algorithms are given an explicit recursion budget (`fuel`)
  so that every definition is structurally recursive and hence evaluable
  by the kernel; exhausting the budget yields a dedicated error that the
  real code cannot produce (its recursion is structural on the JSON tree).
-/

/-- IRIs are modelled as plain strings. -/
abbrev Iri := String

/-- JSON tree values, mirroring `json_syntax::Value` (object / array /
string / number / bool / null).  Numbers are modelled as integers, which
covers every number appearing in the claims. -/
inductive JValue where
  | null
  | boolean (b : Bool)
  | num (n : Int)
  | str (s : String)
  | arr (items : List JValue)
  | obj (entries : List (String × JValue))
deriving Repr

/-- Cause of a loading failure.  The Rust code erases the concrete cause
type behind a boxed error; the causes actually used by the embedded
loaders are `CannotLoad` (`loader/none.rs`), `EntryNotFound`
(`loader/map.rs`) and the pair of causes built by `loader/chain.rs`
(`chain::Error(e1, e2)`). -/
inductive LoadErrorCause where
  | cannotLoad
  | entryNotFound
  | chained (c1 c2 : LoadErrorCause)
deriving Repr, DecidableEq

/-- Mirrors `LoadError` from `json-ld-core`: the failed target IRI plus an
underlying cause. -/
structure LoadError where
  target : Iri
  cause : LoadErrorCause
deriving Repr, DecidableEq

/-- Modelled from the spec: `RemoteDocument` (the struct itself is not
under `src/`; §6 of the spec says it carries the resolved IRI, an optional
separate `@context` link IRI, and the parsed tree value). -/
structure RemoteDocument where
  url : Option Iri
  contextUrl : Option Iri
  document : JValue
deriving Repr

/-- A document loader: the `Loader` trait's `load` method, with the
`async` layer removed.  `NoLoader`, map loaders and `ChainLoader` below
are values of this type. -/
abbrev LoaderFn := Iri → Except LoadError RemoteDocument

/-- Mirrors `impl Loader for NoLoader` (`loader/none.rs` lines 22-26):
every load attempt fails with a `LoadError` whose target is the requested
url and whose cause is `CannotLoad`. -/
def noLoader : LoaderFn :=
  fun url => Except.error ⟨url, LoadErrorCause.cannotLoad⟩

/-- Mirrors `impl Loader for HashMap/BTreeMap` (`loader/map.rs` lines
20-46): the stored document when the url is a key, otherwise a
`LoadError` with target `url` and cause `EntryNotFound`.  The map is
modelled as an association list queried with `List.lookup`. -/
def mapLoader (entries : List (Iri × RemoteDocument)) : LoaderFn :=
  fun url =>
    match entries.lookup url with
    | some document => Except.ok document
    | none => Except.error ⟨url, LoadErrorCause.entryNotFound⟩

/-- Mirrors `impl Loader for ChainLoader` (`loader/chain.rs` lines 28-49):
try the first loader; on failure try the second; when both fail, return a
`LoadError` whose target comes from the second failure and whose cause
pairs both causes (`chain::Error(e1, e2)`). -/
def chainLoader (l1 l2 : LoaderFn) : LoaderFn :=
  fun url =>
    match l1 url with
    | Except.ok doc => Except.ok doc
    | Except.error e1 =>
      match l2 url with
      | Except.ok doc => Except.ok doc
      | Except.error e2 =>
        Except.error ⟨e2.target, LoadErrorCause.chained e1.cause e2.cause⟩

/-- Warnings emitted by the expansion algorithm (`expansion/warning.rs` is
not under `src/`; the spec lists "dropped unresolvable keys" as the
representative non-fatal anomaly, which is the one the embedded subset
emits). -/
inductive Warning where
  | keyExpansionFailed (key : String)
deriving Repr, DecidableEq

/-- Mirrors `impl Handler for ()` (`warning.rs` lines 13-15): the default
warning handler ignores the warning and leaves its (unit) state unchanged.
A handler's `handle(&mut self, vocabulary, warning)` is modelled as a
state-passing function `state → vocabulary → warning → state`. -/
def unitHandle {N W : Type} (s : Unit) (_vocabulary : N) (_warning : W) : Unit :=
  let _ := s
  ()

/-- Base direction of a text literal. -/
inductive Direction where
  | ltr
  | rtl
deriving Repr, DecidableEq

/-- JSON-LD processing mode (1.0 or 1.1). -/
inductive ProcessingMode where
  | json_ld_1_0
  | json_ld_1_1
deriving Repr, DecidableEq

/-- Container mappings of a term definition (§3 of the spec; the composite
graph containers are represented as `graph` plus `id`/`index` in the same
set). -/
inductive ContainerKind where
  | list
  | set
  | index
  | language
  | type
  | id
  | graph
deriving Repr, DecidableEq

/-- Modelled from the spec: `TermDefinition` (§3; the struct lives in the
context-processing crate, which is not under `src/`).  Fields follow the
spec's list; `nested_context` (scoped contexts) is omitted from the
embedded subset. -/
structure TermDefinition where
  iriMapping : Option Iri
  prefixFlag : Bool
  container : List ContainerKind
  typeMapping : Option Iri
  languageMapping : Option (Option String)
  directionMapping : Option (Option Direction)
  protectedFlag : Bool
  reverseFlag : Bool
deriving Repr, DecidableEq

/-- A term definition with only an IRI mapping set; convenient base value
for building concrete definitions. -/
def TermDefinition.simple (iri : Option Iri) : TermDefinition :=
  ⟨iri, false, [], none, none, none, false, false⟩

/-- Modelled from the spec: `ActiveContext` (§3; the `Context` struct of
the core crate is not under `src/`).  `previous_context` (used only for
`@propagate: false` scopes) is omitted from the embedded subset. -/
structure Context where
  termDefinitions : List (String × TermDefinition)
  baseIri : Option Iri
  vocabMapping : Option Iri
  defaultLanguage : Option String
  defaultBaseDirection : Option Direction
  processingMode : ProcessingMode
deriving Repr, DecidableEq

/-- Mirrors `Context::new(base)`: an empty active context with the given
base IRI, in the default 1.1 processing mode. -/
def Context.new (base : Option Iri) : Context :=
  ⟨[], base, none, none, none, ProcessingMode.json_ld_1_1⟩

/-- Looks up a term definition in the active context. -/
def Context.lookupTerm (ctx : Context) (term : String) : Option TermDefinition :=
  ctx.termDefinitions.lookup term

/-- Literal payload of a value object (string, number or boolean). -/
inductive LiteralValue where
  | str (s : String)
  | num (n : Int)
  | boolean (b : Bool)
deriving Repr, DecidableEq

/-- Modelled from the spec: the `Value` shape of expanded objects (§3):
a literal with either a datatype IRI or a language/direction pair, never
both. -/
structure ValueObject where
  literal : LiteralValue
  ty : Option Iri
  language : Option String
  direction : Option Direction
deriving Repr, DecidableEq

/-- Modelled from the spec: the `Object` tagged union of expanded objects
(§3; `json_ld_core::object` is not under `src/`).  A `node` carries an
optional identifier, a type list, property and reverse-property maps, an
optional named/unnamed graph and an optional `@included` block; an
indexed object is an object paired with an optional `@index` string. -/
inductive Object where
  | value (v : ValueObject)
  | node (id : Option Iri) (types : List Iri)
      (properties : List (Iri × List (Object × Option String)))
      (reverseProperties : List (Iri × List (Object × Option String)))
      (graph : Option (List (Object × Option String)))
      (included : Option (List (Object × Option String)))
  | list (items : List (Object × Option String))
deriving Repr

/-- `IndexedObject` is an `Object` plus an optional `@index` string. -/
abbrev IndexedObject := Object × Option String

/-- True exactly when the object is a `Value` object. -/
def Object.isValue : Object → Bool
  | Object.value _ => true
  | _ => false

/-- True exactly when the object is a `Node` object. -/
def Object.isNode : Object → Bool
  | Object.node _ _ _ _ _ _ => true
  | _ => false

/-- True exactly when the object is a `List` object. -/
def Object.isList : Object → Bool
  | Object.list _ => true
  | _ => false

/-- An expanded document is the collection of top-level indexed objects
(the repository stores them in a `HashSet`; the embedding keeps them in
insertion order, which none of the claims depend on). -/
abbrev ExpandedDocument := List IndexedObject

/-- Modelled from the spec: `Expanded` (`expansion/expanded.rs` is not
under `src/`): the result of expanding one element is zero (`null`), one
(`object`) or many (`array`) indexed objects (§4.2: container mappings
fan out or collapse entries). -/
inductive Expanded where
  | null
  | object (o : IndexedObject)
  | array (objects : List IndexedObject)
deriving Repr

/-- Number of objects held by an `Expanded` value (`Expanded::len`). -/
def Expanded.len : Expanded → Nat
  | Expanded.null => 0
  | Expanded.object _ => 1
  | Expanded.array objects => objects.length

/-- The objects held by an `Expanded` value, in order
(`Expanded::into_iter`). -/
def Expanded.toList : Expanded → List IndexedObject
  | Expanded.null => []
  | Expanded.object o => [o]
  | Expanded.array objects => objects

/-- Modelled from the spec: errors of the context processor (§7
"ContextProcessing"; `json-ld-context-processing` is not under `src/`).
`recursionLimit` is the fuel-exhaustion artifact of the embedding. -/
inductive ContextError where
  | recursionLimit
  | invalidLocalContext
  | loadingDocumentFailed (e : LoadError)
  | invalidRemoteContext
  | invalidBaseIri
  | invalidVocabMapping
  | invalidDefaultLanguage
  | invalidBaseDirection
  | invalidTermDefinition
  | invalidContainerMapping
deriving Repr, DecidableEq

/-- Modelled from the spec: errors of the expansion algorithm (§7
"Expansion"; `expansion/error.rs` is not under `src/`).  Context
processing failures triggered by embedded `@context` entries are wrapped
in `contextProcessing`, mirroring
`expansion::Error::ContextProcessing(context_processing::Error)`. -/
inductive Error where
  | recursionLimit
  | contextProcessing (e : ContextError)
  | invalidValueObject
  | invalidValueObjectValue
  | invalidTypeValue
  | invalidIdValue
  | invalidIndexValue
  | invalidLanguageTaggedString
  | invalidBaseDirection
  | invalidReversePropertyMap
  | collidingKeywords
  | invalidSetOrListObject
deriving Repr, DecidableEq

/-- The JSON-LD keywords recognized by the embedded subset. -/
def jsonLdKeywords : List String :=
  ["@base", "@container", "@context", "@direction", "@graph", "@id",
   "@import", "@included", "@index", "@json", "@language", "@list",
   "@nest", "@none", "@propagate", "@protected", "@reverse", "@set",
   "@type", "@value", "@version", "@vocab"]

/-- True when the string is a JSON-LD keyword. -/
def isKeyword (s : String) : Bool :=
  jsonLdKeywords.contains s

/-- Splits a character list at the first colon, returning the parts
before and after it. -/
def splitAtColon : List Char → Option (List Char × List Char)
  | [] => none
  | c :: rest =>
    if c = ':' then some ([], rest)
    else
      match splitAtColon rest with
      | some (before, after) => some (c :: before, after)
      | none => none

/-- Splits a string at its first colon (prefix part, suffix part). -/
def splitColon (s : String) : Option (String × String) :=
  match splitAtColon s.toList with
  | some (before, after) => some (⟨before⟩, ⟨after⟩)
  | none => none

/-- True when the string contains a colon, the embedding's test for a
compact or absolute IRI candidate. -/
def containsColon (s : String) : Bool :=
  (splitColon s).isSome

/-- True when the string is a blank node identifier (starts with `_:`). -/
def isBlankId (s : String) : Bool :=
  match s.toList with
  | '_' :: ':' :: _ => true
  | _ => false

/-- Resolves a possibly relative IRI reference against an optional base
(in the embedded subset, relative references are resolved by
concatenation; the grammar-level IRI libraries are out of the spec's
scope). -/
def resolveIri (base : Option Iri) (s : String) : Iri :=
  if containsColon s then s
  else
    match base with
    | some b => b ++ s
    | none => s

/-- Modelled from the spec: IRI expansion of a string against the active
context (§4.2 "keys are first IRI-expanded against the active context:
keyword lookup takes priority over term lookup; an unresolvable,
non-keyword key that is not a compact IRI and not an absolute IRI is
dropped ... unless it is a blank node reference").  `vocabFlag` applies
the vocabulary mapping, `docRelative` resolves against the context's base
IRI; `none` signals an unresolvable key. -/
def expandIriKey (ctx : Context) (s : String) (vocabFlag docRelative : Bool) :
    Option Iri :=
  if isKeyword s then some s
  else if isBlankId s then some s
  else
    match (if vocabFlag then ctx.lookupTerm s else none) with
    | some td => td.iriMapping
    | none =>
      match splitColon s with
      | some (pre, suf) =>
        match ctx.lookupTerm pre with
        | some td =>
          if td.prefixFlag then
            match td.iriMapping with
            | some m => some (m ++ suf)
            | none => some s
          else some s
        | none => some s
      | none =>
        if vocabFlag then
          match ctx.vocabMapping with
          | some v => some (v ++ s)
          | none => none
        else if docRelative then
          some (resolveIri ctx.baseIri s)
        else none

/-- Modelled from the spec: the options of the expansion algorithm
(`expansion/options.rs` is not under `src/`); `ordered` requests
lexicographic key processing, `processingMode` selects 1.0 or 1.1.  The
`policy` field (term expansion policy) is omitted from the subset. -/
structure ExpansionOptions where
  ordered : Bool
  processingMode : ProcessingMode
deriving Repr, DecidableEq

/-- Default expansion options (unordered, JSON-LD 1.1). -/
def ExpansionOptions.default : ExpansionOptions :=
  ⟨false, ProcessingMode.json_ld_1_1⟩

/-- Modelled from the spec: scalar expansion (§4.2 "Scalars"): the literal
becomes a `Value` object whose type, language and direction are taken from
the enclosing term's definition when `active_property` has one, else from
the active context's defaults.  A datatype and a language/direction pair
are mutually exclusive, and language/direction only attach to string
literals. -/
def expandLiteral (ctx : Context) (tdef : Option TermDefinition)
    (lit : LiteralValue) : ValueObject :=
  let ty : Option Iri :=
    match tdef with
    | some td =>
      match td.typeMapping with
      | some t => if isKeyword t then none else some t
      | none => none
    | none => none
  let isStr : Bool :=
    match lit with
    | LiteralValue.str _ => true
    | _ => false
  let lang : Option String :=
    if ty.isSome || !isStr then none
    else
      match tdef with
      | some td =>
        match td.languageMapping with
        | some lm => lm
        | none => ctx.defaultLanguage
      | none => ctx.defaultLanguage
  let dir : Option Direction :=
    if ty.isSome || !isStr then none
    else
      match tdef with
      | some td =>
        match td.directionMapping with
        | some dm => dm
        | none => ctx.defaultBaseDirection
      | none => ctx.defaultBaseDirection
  ⟨lit, ty, lang, dir⟩

/-- Parses one `@container` keyword string into a container kind. -/
def parseContainerKind (s : String) : Option ContainerKind :=
  if s = "@list" then some ContainerKind.list
  else if s = "@set" then some ContainerKind.set
  else if s = "@index" then some ContainerKind.index
  else if s = "@language" then some ContainerKind.language
  else if s = "@type" then some ContainerKind.type
  else if s = "@id" then some ContainerKind.id
  else if s = "@graph" then some ContainerKind.graph
  else none

/-- Parses a list of `@container` keyword values. -/
def parseContainerItems : List JValue → Option (List ContainerKind)
  | [] => some []
  | JValue.str s :: rest =>
    match parseContainerKind s, parseContainerItems rest with
    | some k, some ks => some (k :: ks)
    | _, _ => none
  | _ => none

/-- Parses a `@container` entry value (a keyword string or an array of
keyword strings). -/
def parseContainer : JValue → Option (List ContainerKind)
  | JValue.str s => (parseContainerKind s).map (fun k => [k])
  | JValue.arr items => parseContainerItems items
  | _ => none

/-- Inserts or replaces a term definition in a definition map, keeping the
insertion order of existing entries. -/
def upsertTerm (defs : List (String × TermDefinition)) (k : String)
    (td : TermDefinition) : List (String × TermDefinition) :=
  if (defs.lookup k).isSome then
    defs.map (fun e => if e.1 = k then (e.1, td) else e)
  else defs ++ [(k, td)]

/-- Modelled from the spec: the "create term definition" step of context
processing (§4.1; the crate is not under `src/`).  A definition is `null`
(the term is explicitly disabled), a string (its IRI mapping), or an
object with `@id`, `@container`, `@type`, `@language`, `@prefix` and
`@protected` entries; other entries and forward term references are
outside the embedded subset. -/
def createTermDefinition (ctxR : Context) (key : String) :
    JValue → Except ContextError TermDefinition
  | JValue.null => Except.ok (TermDefinition.simple none)
  | JValue.str s =>
    match expandIriKey ctxR s true false with
    | some iri => Except.ok (TermDefinition.simple (some iri))
    | none => Except.error ContextError.invalidTermDefinition
  | JValue.obj des => do
    let iriM : Option Iri ←
      match des.lookup "@id" with
      | some (JValue.str s) =>
        match expandIriKey ctxR s true false with
        | some iri => Except.ok (some iri)
        | none => Except.error ContextError.invalidTermDefinition
      | some JValue.null => Except.ok none
      | some _ => Except.error ContextError.invalidTermDefinition
      | none =>
        match expandIriKey ctxR key true false with
        | some iri => Except.ok (some iri)
        | none => Except.error ContextError.invalidTermDefinition
    let container : List ContainerKind ←
      match des.lookup "@container" with
      | some v =>
        match parseContainer v with
        | some ks => Except.ok ks
        | none => Except.error ContextError.invalidContainerMapping
      | none => Except.ok []
    let tyM : Option Iri ←
      match des.lookup "@type" with
      | some (JValue.str s) =>
        match expandIriKey ctxR s true false with
        | some iri => Except.ok (some iri)
        | none => Except.error ContextError.invalidTermDefinition
      | some _ => Except.error ContextError.invalidTermDefinition
      | none => Except.ok none
    let langM : Option (Option String) ←
      match des.lookup "@language" with
      | some (JValue.str s) => Except.ok (some (some s))
      | some JValue.null => Except.ok (some none)
      | some _ => Except.error ContextError.invalidDefaultLanguage
      | none => Except.ok none
    let prefixB : Bool ←
      match des.lookup "@prefix" with
      | some (JValue.boolean b) => Except.ok b
      | some _ => Except.error ContextError.invalidTermDefinition
      | none => Except.ok false
    let protB : Bool ←
      match des.lookup "@protected" with
      | some (JValue.boolean b) => Except.ok b
      | some _ => Except.error ContextError.invalidTermDefinition
      | none => Except.ok false
    Except.ok ⟨iriM, prefixB, container, tyM, langM, none, protB, false⟩
  | _ => Except.error ContextError.invalidTermDefinition

/-- Modelled from the spec: folding the entries of an object-form local
context into the active context, in the order given (§4.1): context-level
keywords update the corresponding fields, any other key defines a term. -/
def processContextEntries (active : Context) :
    List (String × JValue) → Except ContextError Context
  | [] => Except.ok active
  | (k, v) :: rest => do
    let next : Context ←
      if k = "@base" then
        match v with
        | JValue.null => Except.ok { active with baseIri := none }
        | JValue.str s =>
          Except.ok { active with baseIri := some (resolveIri active.baseIri s) }
        | _ => Except.error ContextError.invalidBaseIri
      else if k = "@vocab" then
        match v with
        | JValue.null => Except.ok { active with vocabMapping := none }
        | JValue.str s =>
          if containsColon s || isBlankId s then
            Except.ok { active with vocabMapping := some s }
          else Except.error ContextError.invalidVocabMapping
        | _ => Except.error ContextError.invalidVocabMapping
      else if k = "@language" then
        match v with
        | JValue.null => Except.ok { active with defaultLanguage := none }
        | JValue.str s => Except.ok { active with defaultLanguage := some s }
        | _ => Except.error ContextError.invalidDefaultLanguage
      else if k = "@direction" then
        match v with
        | JValue.null => Except.ok { active with defaultBaseDirection := none }
        | JValue.str s =>
          if s = "ltr" then
            Except.ok { active with defaultBaseDirection := some Direction.ltr }
          else if s = "rtl" then
            Except.ok { active with defaultBaseDirection := some Direction.rtl }
          else Except.error ContextError.invalidBaseDirection
        | _ => Except.error ContextError.invalidBaseDirection
      else if k = "@version" || k = "@propagate" || k = "@import"
          || k = "@protected" then
        Except.ok active
      else do
        let td ← createTermDefinition active k v
        Except.ok
          { active with termDefinitions := upsertTerm active.termDefinitions k td }
    processContextEntries next rest

/-- Folds a list of local contexts left to right, each intermediate active
context feeding the next (§4.1: "multiple remote context references in one
`LocalContext` array are processed and folded left-to-right").  The
recursive call on each member is passed in as `f`. -/
def processContextList
    (f : Context → JValue → Option Iri → Except ContextError Context)
    (active : Context) :
    List JValue → Option Iri → Except ContextError Context
  | [], _ => Except.ok active
  | c :: rest, baseUrl => do
    let next ← f active c baseUrl
    processContextList f next rest baseUrl

/-- Modelled from the spec: the Context Processing algorithm (§4.1; the
`json-ld-context-processing` crate is not under `src/`).  The subset
handles `null` (reset to an empty context, keeping the base IRI), a string
(a remote context reference resolved against `base_url`, fetched through
the loader, and required to inline its `@context`), an array (folded left
to right), and an object (entries folded in order).  `fuel` is the
embedding's recursion budget. -/
def processContext (fuel : Nat) (loader : LoaderFn) (active : Context)
    (localCtx : JValue) (baseUrl : Option Iri) : Except ContextError Context :=
  match fuel with
  | 0 => Except.error ContextError.recursionLimit
  | fuel + 1 =>
    match localCtx with
    | JValue.null =>
      Except.ok ⟨[], active.baseIri, none, none, none, active.processingMode⟩
    | JValue.str s =>
      let target := resolveIri baseUrl s
      match loader target with
      | Except.error e => Except.error (ContextError.loadingDocumentFailed e)
      | Except.ok rd =>
        match rd.document with
        | JValue.obj entries =>
          match entries.lookup "@context" with
          | some ctxVal => processContext fuel loader active ctxVal rd.url
          | none => Except.error ContextError.invalidRemoteContext
        | _ => Except.error ContextError.invalidRemoteContext
    | JValue.arr ctxs =>
      processContextList (processContext fuel loader) active ctxs baseUrl
    | JValue.obj entries => processContextEntries active entries
    | _ => Except.error ContextError.invalidLocalContext

/-- The type of the recursive element-expansion call: active context,
active property, element, base URL, options and `from_map` flag, yielding
the expanded objects together with the emitted warnings. -/
abbrev ElemExpander :=
  Context → Option String → JValue → Option Iri → ExpansionOptions → Bool →
    Except Error (Expanded × List Warning)

/-- Mirrors `filter_top_level_item` (`expansion/src/document.rs` lines
57-60): keep an indexed object unless it is a dangling `Value` object. -/
def filter_top_level_item (item : IndexedObject) : Bool :=
  !item.1.isValue

/-- Inserts an entry into a key-sorted entry list. -/
def insertEntrySorted (p : String × JValue) :
    List (String × JValue) → List (String × JValue)
  | [] => [p]
  | q :: rest =>
    if p.1 < q.1 then p :: q :: rest else q :: insertEntrySorted p rest

/-- Sorts object entries lexicographically by key (used when the `ordered`
option is set). -/
def sortEntriesByKey : List (String × JValue) → List (String × JValue)
  | [] => []
  | p :: rest => insertEntrySorted p (sortEntriesByKey rest)

/-- Accumulator for the keyword values of an explicit `@value` object. -/
structure ValueAcc where
  value : Option JValue
  ty : Option String
  language : Option String
  direction : Option String
  index : Option String
deriving Repr

/-- Modelled from the spec: collecting the entries of an object containing
`@value` (§4.2 keyword entries); any key other than `@value`, `@type`,
`@language`, `@direction`, `@index` and `@context` makes the value object
invalid. -/
def collectValueEntries :
    List (String × JValue) → ValueAcc → Except Error ValueAcc
  | [], acc => Except.ok acc
  | (k, v) :: rest, acc =>
    if k = "@value" then collectValueEntries rest { acc with value := some v }
    else if k = "@type" then
      match v with
      | JValue.str s => collectValueEntries rest { acc with ty := some s }
      | _ => Except.error Error.invalidTypeValue
    else if k = "@language" then
      match v with
      | JValue.str s => collectValueEntries rest { acc with language := some s }
      | _ => Except.error Error.invalidLanguageTaggedString
    else if k = "@direction" then
      match v with
      | JValue.str s => collectValueEntries rest { acc with direction := some s }
      | _ => Except.error Error.invalidBaseDirection
    else if k = "@index" then
      match v with
      | JValue.str s => collectValueEntries rest { acc with index := some s }
      | _ => Except.error Error.invalidIndexValue
    else if k = "@context" then collectValueEntries rest acc
    else Except.error Error.invalidValueObject

/-- Modelled from the spec: expansion of an object containing `@value`
(§4.2): the `@value` must be a scalar (or `null`, which drops the whole
object); a datatype (`@type`) may not be combined with `@language` or
`@direction` (§3 invariant on `Value` objects). -/
def expandValueObject (ctx : Context) (entries : List (String × JValue)) :
    Except Error (Expanded × List Warning) := do
  let acc ← collectValueEntries entries ⟨none, none, none, none, none⟩
  let lit : Option LiteralValue ←
    match acc.value with
    | some JValue.null => Except.ok none
    | some (JValue.str s) => Except.ok (some (LiteralValue.str s))
    | some (JValue.num n) => Except.ok (some (LiteralValue.num n))
    | some (JValue.boolean b) => Except.ok (some (LiteralValue.boolean b))
    | some _ => Except.error Error.invalidValueObjectValue
    | none => Except.error Error.invalidValueObject
  match lit with
  | none => Except.ok (Expanded.null, [])
  | some lit => do
    let tyE : Option Iri ←
      match acc.ty with
      | some s =>
        match expandIriKey ctx s true false with
        | some iri => Except.ok (some iri)
        | none => Except.error Error.invalidTypeValue
      | none => Except.ok none
    if tyE.isSome && (acc.language.isSome || acc.direction.isSome) then
      Except.error Error.invalidValueObject
    else do
      let dir : Option Direction ←
        match acc.direction with
        | some "ltr" => Except.ok (some Direction.ltr)
        | some "rtl" => Except.ok (some Direction.rtl)
        | some _ => Except.error Error.invalidBaseDirection
        | none => Except.ok none
      Except.ok
        (Expanded.object (Object.value ⟨lit, tyE, acc.language, dir⟩, acc.index),
          [])

/-- Accumulator for the fields of a node object under construction. -/
structure NodeAcc where
  id : Option Iri
  types : List Iri
  properties : List (Iri × List IndexedObject)
  reverseProperties : List (Iri × List IndexedObject)
  graph : Option (List IndexedObject)
  included : Option (List IndexedObject)
  index : Option String

/-- The empty node accumulator. -/
def NodeAcc.empty : NodeAcc :=
  ⟨none, [], [], [], none, none, none⟩

/-- Appends objects under a property IRI, merging with an existing entry
for the same IRI and otherwise keeping insertion order. -/
def addEntries (props : List (Iri × List IndexedObject)) (k : Iri)
    (vals : List IndexedObject) : List (Iri × List IndexedObject) :=
  if (props.lookup k).isSome then
    props.map (fun e => if e.1 = k then (e.1, e.2 ++ vals) else e)
  else props ++ [(k, vals)]

/-- Modelled from the spec: expansion of a `@type` entry (a string or an
array of strings, each IRI-expanded with the vocabulary and base). -/
def expandTypes (ctx : Context) : JValue → Except Error (List Iri)
  | JValue.str s =>
    match expandIriKey ctx s true true with
    | some iri => Except.ok [iri]
    | none => Except.error Error.invalidTypeValue
  | JValue.arr vs => expandTypeItems ctx vs
  | _ => Except.error Error.invalidTypeValue
where
  /-- Expands the members of an array-valued `@type` entry. -/
  expandTypeItems (ctx : Context) : List JValue → Except Error (List Iri)
    | [] => Except.ok []
    | JValue.str s :: rest =>
      match expandIriKey ctx s true true with
      | some iri => do
        let more ← expandTypeItems ctx rest
        Except.ok (iri :: more)
      | none => Except.error Error.invalidTypeValue
    | _ => Except.error Error.invalidTypeValue

/-- Modelled from the spec: expansion of the entries of a `@reverse` map
(§4.2; each entry's key is IRI-expanded, unresolvable keys are dropped
with a warning, and values are expanded with the entry key as active
property). -/
def expand_reverse_entries (f : ElemExpander) (ctx : Context)
    (baseUrl : Option Iri) (options : ExpansionOptions)
    (props : List (Iri × List IndexedObject)) (warnings : List Warning) :
    List (String × JValue) →
      Except Error (List (Iri × List IndexedObject) × List Warning)
  | [] => Except.ok (props, warnings)
  | (rk, rv) :: rest =>
    match expandIriKey ctx rk true false with
    | none =>
      expand_reverse_entries f ctx baseUrl options props
        (warnings ++ [Warning.keyExpansionFailed rk]) rest
    | some riri => do
      let (e, ws) ← f ctx (some rk) rv baseUrl options false
      expand_reverse_entries f ctx baseUrl options
        (addEntries props riri e.toList) (warnings ++ ws) rest

/-- Modelled from the spec: the per-entry loop of node object expansion
(§4.2 "Objects"; `expansion/src/node.rs` is not under `src/`).  Keys are
IRI-expanded (keyword lookup first); unresolvable keys are dropped with a
warning; `@id`, `@type`, `@graph` (whose contents are filtered with
`filter_top_level_item`), `@included`, `@index` and `@reverse` populate
the corresponding node fields; any other resolved key is a property entry
whose value is expanded recursively with that key as active property.
Keywords outside the subset are skipped. -/
def expand_node_entries (f : ElemExpander) (ctx : Context)
    (baseUrl : Option Iri) (options : ExpansionOptions) (acc : NodeAcc)
    (warnings : List Warning) :
    List (String × JValue) → Except Error (NodeAcc × List Warning)
  | [] => Except.ok (acc, warnings)
  | (key, v) :: rest =>
    if key = "@context" then
      expand_node_entries f ctx baseUrl options acc warnings rest
    else
      match expandIriKey ctx key true false with
      | none =>
        expand_node_entries f ctx baseUrl options acc
          (warnings ++ [Warning.keyExpansionFailed key]) rest
      | some expandedKey =>
        if expandedKey = "@id" then
          match v with
          | JValue.str s =>
            match expandIriKey ctx s false true with
            | some iri =>
              expand_node_entries f ctx baseUrl options
                { acc with id := some iri } warnings rest
            | none => Except.error Error.invalidIdValue
          | _ => Except.error Error.invalidIdValue
        else if expandedKey = "@type" then do
          let ts ← expandTypes ctx v
          expand_node_entries f ctx baseUrl options
            { acc with types := acc.types ++ ts } warnings rest
        else if expandedKey = "@graph" then do
          let (e, ws) ← f ctx (some "@graph") v baseUrl options false
          expand_node_entries f ctx baseUrl options
            { acc with graph := some (e.toList.filter filter_top_level_item) }
            (warnings ++ ws) rest
        else if expandedKey = "@included" then do
          let (e, ws) ← f ctx none v baseUrl options false
          expand_node_entries f ctx baseUrl options
            { acc with included := some e.toList } (warnings ++ ws) rest
        else if expandedKey = "@index" then
          match v with
          | JValue.str s =>
            expand_node_entries f ctx baseUrl options
              { acc with index := some s } warnings rest
          | _ => Except.error Error.invalidIndexValue
        else if expandedKey = "@reverse" then
          match v with
          | JValue.obj res => do
            let (rprops, ws) ←
              expand_reverse_entries f ctx baseUrl options
                acc.reverseProperties [] res
            expand_node_entries f ctx baseUrl options
              { acc with reverseProperties := rprops } (warnings ++ ws) rest
          | _ => Except.error Error.invalidReversePropertyMap
        else if expandedKey = "@value" || expandedKey = "@list"
            || expandedKey = "@set" then
          Except.error Error.collidingKeywords
        else if isKeyword expandedKey then
          expand_node_entries f ctx baseUrl options acc warnings rest
        else do
          let (e, ws) ← f ctx (some key) v baseUrl options false
          expand_node_entries f ctx baseUrl options
            { acc with properties := addEntries acc.properties expandedKey e.toList }
            (warnings ++ ws) rest

/-- Mirrors the item loop of `expand_array` (`expansion/src/array.rs`
lines 40-60): each item is expanded by the recursive call `f` with the
same active context, active property, base URL, options and `from_map`
flag, and the expanded objects (and warnings) are appended to the running
accumulators, in document order. -/
def expand_array_loop (f : ElemExpander) (ctx : Context)
    (activeProp : Option String) (baseUrl : Option Iri)
    (options : ExpansionOptions) (fromMap : Bool)
    (result : List IndexedObject) (warnings : List Warning) :
    List JValue → Except Error (List IndexedObject × List Warning)
  | [] => Except.ok (result, warnings)
  | item :: rest => do
    let (e, ws) ← f ctx activeProp item baseUrl options fromMap
    expand_array_loop f ctx activeProp baseUrl options fromMap
      (result ++ e.toList) (warnings ++ ws) rest

/-- Mirrors `expand_array` (`expansion/src/array.rs` lines 13-70),
parameterized by the recursive element expansion `f` (the Rust function
recurses into `expand_element`): compute whether the active property's
definition has a `@list` container, expand every item and concatenate,
then either wrap the concatenation into a single `List` object (list
container) or return it as a plain array to be spliced into the parent. -/
def expand_array (f : ElemExpander) (ctx : Context)
    (activeProp : Option String)
    (activePropDefinition : Option TermDefinition) (element : List JValue)
    (baseUrl : Option Iri) (options : ExpansionOptions) (fromMap : Bool) :
    Except Error (Expanded × List Warning) := do
  let is_list : Bool :=
    match activePropDefinition with
    | some definition => definition.container.contains ContainerKind.list
    | none => false
  let (result, ws) ←
    expand_array_loop f ctx activeProp baseUrl options fromMap [] [] element
  if is_list then
    Except.ok (Expanded.object (Object.list result, none), ws)
  else
    Except.ok (Expanded.array result, ws)

/-- Modelled from the spec: expansion of a JSON object (§4.2 "Objects";
`expansion/src/element.rs` and `node.rs` are not under `src/`).  A nested
`@context` entry is processed first, regardless of its position; entries
are then processed in document order, or sorted lexicographically when
the `ordered` option is set; an object containing `@value` becomes a
`Value` object, one containing `@list` becomes a single `List` object,
one containing `@set` is spliced; otherwise the entries build a node
object, and a free-floating node (empty, or carrying only `@id`) outside
any property scope is dropped. -/
def expand_object (f : ElemExpander)
    (pc : Context → JValue → Option Iri → Except ContextError Context)
    (ctx : Context) (activeProp : Option String)
    (entries : List (String × JValue)) (baseUrl : Option Iri)
    (options : ExpansionOptions) (fromMap : Bool) :
    Except Error (Expanded × List Warning) := do
  let _ := fromMap
  let ctx2 ←
    match entries.lookup "@context" with
    | some ctxVal => (pc ctx ctxVal baseUrl).mapError Error.contextProcessing
    | none => Except.ok ctx
  let orderedEntries := if options.ordered then sortEntriesByKey entries else entries
  if (orderedEntries.lookup "@value").isSome then
    expandValueObject ctx2 orderedEntries
  else
    match orderedEntries.lookup "@list" with
    | some listVal =>
      if orderedEntries.all
          (fun e => e.1 == "@list" || e.1 == "@index" || e.1 == "@context") then do
        let (e, ws) ← f ctx2 activeProp listVal baseUrl options false
        let index :=
          match orderedEntries.lookup "@index" with
          | some (JValue.str s) => some s
          | _ => none
        Except.ok (Expanded.object (Object.list e.toList, index), ws)
      else Except.error Error.invalidSetOrListObject
    | none =>
      match orderedEntries.lookup "@set" with
      | some setVal =>
        if orderedEntries.all
            (fun e => e.1 == "@set" || e.1 == "@index" || e.1 == "@context") then
          f ctx2 activeProp setVal baseUrl options false
        else Except.error Error.invalidSetOrListObject
      | none => do
        let (acc, ws) ←
          expand_node_entries f ctx2 baseUrl options NodeAcc.empty []
            orderedEntries
        let dropScope := activeProp.isNone || activeProp == some "@graph"
        let emptyish := acc.types.isEmpty && acc.properties.isEmpty
          && acc.reverseProperties.isEmpty && acc.graph.isNone
          && acc.included.isNone && acc.index.isNone
        if dropScope && emptyish then Except.ok (Expanded.null, ws)
        else
          Except.ok
            (Expanded.object
              (Object.node acc.id acc.types acc.properties
                acc.reverseProperties acc.graph acc.included, acc.index), ws)

/-- Modelled from the spec: the element expansion algorithm (§4.2;
`expansion/src/element.rs` is not under `src/`).  `null` elements are
dropped; scalars become `Value` objects via `expandLiteral`; arrays go
through `expand_array` with the active property's term definition; objects
go through `expand_object`.  `fuel` is the embedding's recursion budget,
decremented on every recursive call. -/
def expand_element (fuel : Nat) (loader : LoaderFn) : ElemExpander :=
  match fuel with
  | 0 => fun _ _ _ _ _ _ => Except.error Error.recursionLimit
  | fuel + 1 => fun ctx activeProp element baseUrl options fromMap =>
    let tdef : Option TermDefinition :=
      match activeProp with
      | some p => ctx.lookupTerm p
      | none => none
    match element with
    | JValue.null => Except.ok (Expanded.null, [])
    | JValue.boolean b =>
      Except.ok
        (Expanded.object
          (Object.value (expandLiteral ctx tdef (LiteralValue.boolean b)), none),
          [])
    | JValue.num n =>
      Except.ok
        (Expanded.object
          (Object.value (expandLiteral ctx tdef (LiteralValue.num n)), none), [])
    | JValue.str s =>
      Except.ok
        (Expanded.object
          (Object.value (expandLiteral ctx tdef (LiteralValue.str s)), none), [])
    | JValue.arr items =>
      expand_array (expand_element fuel loader) ctx activeProp tdef items
        baseUrl options fromMap
    | JValue.obj entries =>
      expand_object (expand_element fuel loader) (processContext fuel loader)
        ctx activeProp entries baseUrl options fromMap

/-- Modelled from the spec: `Indexed::into_unnamed_graph` (not under
`src/`): a node object whose only content is an unnamed graph (no id,
types, properties, reverse properties or `@included`, and no index)
converts into the list of its graph's objects; any other object is
returned unchanged as the error value, mirroring the Rust
`Result<Vec<IndexedObject>, Self>`. -/
def into_unnamed_graph (obj : IndexedObject) :
    Except IndexedObject (List IndexedObject) :=
  match obj with
  | (Object.node none [] [] [] (some graph) none, none) => Except.ok graph
  | other => Except.error other

/-- Mirrors the document-level `expand` (`expansion/src/document.rs` lines
28-55), parameterized by the element expansion `f`: expand the root
element with no active property; when the result is a single object that
converts into an unnamed graph, the document is that graph's objects;
otherwise dangling top-level `Value` objects are filtered out with
`filter_top_level_item`. -/
def expand_document_gen (f : ElemExpander) (document : JValue)
    (active_context : Context) (base_url : Option Iri)
    (options : ExpansionOptions) :
    Except Error (ExpandedDocument × List Warning) := do
  let (expanded, ws) ← f active_context none document base_url options false
  match expanded.toList with
  | [obj] =>
    match into_unnamed_graph obj with
    | Except.ok graph => Except.ok (graph, ws)
    | Except.error obj =>
      Except.ok ((if filter_top_level_item obj then [obj] else []), ws)
  | objs => Except.ok (objs.filter filter_top_level_item, ws)

/-- The document expansion entry point with explicit fuel: mirrors
`document::expand` applied to `expand_element`. -/
def expandDocument (fuel : Nat) (loader : LoaderFn) (document : JValue)
    (active_context : Context) (base_url : Option Iri)
    (options : ExpansionOptions) :
    Except Error (ExpandedDocument × List Warning) :=
  match fuel with
  | 0 => Except.error Error.recursionLimit
  | fuel + 1 =>
    expand_document_gen (expand_element fuel loader) document active_context
      base_url options

/-- RDF resources: IRIs or blank node identifiers. -/
inductive RdfId where
  | iri (s : Iri)
  | blank (s : String)
deriving Repr, DecidableEq

/-- An RDF literal: lexical value, datatype IRI, optional language tag. -/
structure RdfLiteral where
  value : String
  datatype : Iri
  language : Option String
deriving Repr, DecidableEq

/-- An RDF term in object position: a resource or a literal. -/
inductive RdfTerm where
  | id (v : RdfId)
  | literal (l : RdfLiteral)
deriving Repr, DecidableEq

/-- Mirrors `Quad` (§3): subject, predicate, object and optional graph
name; the default graph is `none`. -/
structure Quad where
  subject : RdfId
  predicate : RdfId
  object : RdfTerm
  graph : Option RdfId
deriving Repr, DecidableEq

/-- The `rdf_direction` option (§6). -/
inductive RdfDirection where
  | i18nDatatype
  | compoundLiteral
deriving Repr, DecidableEq

/-- Well-known RDF and XSD IRIs used by the converter. -/
def rdfTypeIri : Iri := "http://www.w3.org/1999/02/22-rdf-syntax-ns#type"

/-- The `rdf:first` IRI. -/
def rdfFirstIri : Iri := "http://www.w3.org/1999/02/22-rdf-syntax-ns#first"

/-- The `rdf:rest` IRI. -/
def rdfRestIri : Iri := "http://www.w3.org/1999/02/22-rdf-syntax-ns#rest"

/-- The `rdf:nil` IRI. -/
def rdfNilIri : Iri := "http://www.w3.org/1999/02/22-rdf-syntax-ns#nil"

/-- The `rdf:value` IRI. -/
def rdfValueIri : Iri := "http://www.w3.org/1999/02/22-rdf-syntax-ns#value"

/-- The `rdf:language` IRI. -/
def rdfLanguageIri : Iri := "http://www.w3.org/1999/02/22-rdf-syntax-ns#language"

/-- The `rdf:direction` IRI. -/
def rdfDirectionIri : Iri := "http://www.w3.org/1999/02/22-rdf-syntax-ns#direction"

/-- The `rdf:langString` datatype IRI. -/
def rdfLangStringIri : Iri :=
  "http://www.w3.org/1999/02/22-rdf-syntax-ns#langString"

/-- The `xsd:string` datatype IRI. -/
def xsdStringIri : Iri := "http://www.w3.org/2001/XMLSchema#string"

/-- The `xsd:integer` datatype IRI. -/
def xsdIntegerIri : Iri := "http://www.w3.org/2001/XMLSchema#integer"

/-- The `xsd:boolean` datatype IRI. -/
def xsdBooleanIri : Iri := "http://www.w3.org/2001/XMLSchema#boolean"

/-- The base of the i18n datatype IRIs synthesized for direction-tagged
literals. -/
def i18nBaseIri : Iri := "https://www.w3.org/ns/i18n#"

/-- Interprets an identifier string as an RDF resource (blank node when it
starts with `_:`, IRI otherwise). -/
def termId (s : String) : RdfId :=
  if isBlankId s then RdfId.blank s else RdfId.iri s

/-- The deterministic blank node generator (`rdf_types::generator::Blank`
modelled with an explicit counter state): the fresh label is derived from
the counter, which is then incremented. -/
def freshBlank (g : Nat) : RdfId × Nat :=
  (RdfId.blank ("_:b" ++ toString g), g + 1)

/-- Direction keyword string of a base direction. -/
def Direction.asString : Direction → String
  | Direction.ltr => "ltr"
  | Direction.rtl => "rtl"

/-- Modelled from the spec: encoding of a `Value` object as an RDF literal
(§4.3): an explicit datatype wins; under `I18nDatatype` a direction-tagged
literal gets a synthesized `i18n` datatype encoding language and
direction; a language-tagged string becomes `rdf:langString`; otherwise
the datatype follows the literal kind.  Direction is ignored when
`rdf_direction` is absent. -/
def literalOfValue (rdfDir : Option RdfDirection) (v : ValueObject) :
    RdfLiteral :=
  let valueStr : String :=
    match v.literal with
    | LiteralValue.str s => s
    | LiteralValue.num n => toString n
    | LiteralValue.boolean b => cond b "true" "false"
  match v.ty with
  | some t => ⟨valueStr, t, none⟩
  | none =>
    match v.direction, rdfDir with
    | some d, some RdfDirection.i18nDatatype =>
      ⟨valueStr,
        i18nBaseIri ++ (match v.language with | some l => l | none => "")
          ++ "_" ++ d.asString, none⟩
    | _, _ =>
      match v.language with
      | some l => ⟨valueStr, rdfLangStringIri, some l⟩
      | none =>
        match v.literal with
        | LiteralValue.str _ => ⟨valueStr, xsdStringIri, none⟩
        | LiteralValue.num _ => ⟨valueStr, xsdIntegerIri, none⟩
        | LiteralValue.boolean _ => ⟨valueStr, xsdBooleanIri, none⟩

/-- The type of the recursive object-to-term conversion: graph label,
generator state and object, yielding the object's RDF term, the quads it
contributes and the updated generator state. -/
abbrev RdfTermFn := Option RdfId → Nat → IndexedObject → RdfTerm × List Quad × Nat

/-- Modelled from the spec: conversion of a `Value` object to a term
(§4.3): under `CompoundLiteral` a direction-tagged value becomes a fresh
blank node bearing `rdf:value`, `rdf:language` (if present) and
`rdf:direction` triples; otherwise the value becomes a literal term via
`literalOfValue`. -/
def rdf_value_term (rdfDir : Option RdfDirection) (gl : Option RdfId)
    (gen : Nat) (v : ValueObject) : RdfTerm × List Quad × Nat :=
  match v.direction, rdfDir with
  | some d, some RdfDirection.compoundLiteral =>
    let (b, gen1) := freshBlank gen
    let valueQuad :=
      Quad.mk b (RdfId.iri rdfValueIri)
        (RdfTerm.literal (literalOfValue none ⟨v.literal, v.ty, none, none⟩)) gl
    let langQuads :=
      match v.language with
      | some l =>
        [Quad.mk b (RdfId.iri rdfLanguageIri)
          (RdfTerm.literal ⟨l, xsdStringIri, none⟩) gl]
      | none => []
    let dirQuad :=
      Quad.mk b (RdfId.iri rdfDirectionIri)
        (RdfTerm.literal ⟨d.asString, xsdStringIri, none⟩) gl
    (RdfTerm.id b, [valueQuad] ++ langQuads ++ [dirQuad], gen1)
  | _, _ => (RdfTerm.literal (literalOfValue rdfDir v), [], gen)

/-- Modelled from the spec: serialization of a `List` object as an
`rdf:first`/`rdf:rest` chain terminated by `rdf:nil`, introducing one
fresh blank node per list cell (§4.3).  The recursive conversion of the
members is passed in as `f`. -/
def rdf_list_chain (f : RdfTermFn) (gl : Option RdfId) (gen : Nat) :
    List IndexedObject → RdfTerm × List Quad × Nat
  | [] => (RdfTerm.id (RdfId.iri rdfNilIri), [], gen)
  | x :: rest =>
    let (b, gen1) := freshBlank gen
    let (t, qx, gen2) := f gl gen1 x
    let (rt, qr, gen3) := rdf_list_chain f gl gen2 rest
    (RdfTerm.id b,
      [Quad.mk b (RdfId.iri rdfFirstIri) t gl, Quad.mk b (RdfId.iri rdfRestIri) rt gl]
        ++ qx ++ qr, gen3)

/-- Converts the values of one property into quads with the given subject
and predicate. -/
def rdf_prop_values (f : RdfTermFn) (gl : Option RdfId) (subject : RdfId)
    (pred : RdfId) (gen : Nat) : List IndexedObject → List Quad × Nat
  | [] => ([], gen)
  | v :: rest =>
    let (t, q, gen1) := f gl gen v
    let (qs, gen2) := rdf_prop_values f gl subject pred gen1 rest
    (Quad.mk subject pred t gl :: q ++ qs, gen2)

/-- Converts a node's property map into quads. -/
def rdf_props (f : RdfTermFn) (gl : Option RdfId) (subject : RdfId) (gen : Nat) :
    List (Iri × List IndexedObject) → List Quad × Nat
  | [] => ([], gen)
  | (p, vals) :: rest =>
    let (qs, gen1) := rdf_prop_values f gl subject (termId p) gen vals
    let (more, gen2) := rdf_props f gl subject gen1 rest
    (qs ++ more, gen2)

/-- Converts a node's reverse-property map into quads with subject and
object swapped; values that are not resources are skipped. -/
def rdf_reverse_props (f : RdfTermFn) (gl : Option RdfId) (subject : RdfId)
    (gen : Nat) : List (Iri × List IndexedObject) → List Quad × Nat
  | [] => ([], gen)
  | (p, vals) :: rest =>
    let (qs, gen1) := rdf_reverse_values f gl subject (termId p) gen vals
    let (more, gen2) := rdf_reverse_props f gl subject gen1 rest
    (qs ++ more, gen2)
where
  /-- Converts the values of one reverse property. -/
  rdf_reverse_values (f : RdfTermFn) (gl : Option RdfId) (subject : RdfId)
      (pred : RdfId) (gen : Nat) : List IndexedObject → List Quad × Nat
    | [] => ([], gen)
    | v :: rest =>
      let (t, q, gen1) := f gl gen v
      let (qs, gen2) := rdf_reverse_values f gl subject pred gen1 rest
      match t with
      | RdfTerm.id o => (Quad.mk o pred (RdfTerm.id subject) gl :: q ++ qs, gen2)
      | RdfTerm.literal _ => (q ++ qs, gen2)

/-- Converts a list of objects into quads, discarding their terms (used
for graph contents, `@included` blocks and the top level). -/
def rdf_graph_objects (f : RdfTermFn) (gl : Option RdfId) (gen : Nat) :
    List IndexedObject → List Quad × Nat
  | [] => ([], gen)
  | x :: rest =>
    let (_, q, gen1) := f gl gen x
    let (qs, gen2) := rdf_graph_objects f gl gen1 rest
    (q ++ qs, gen2)

/-- Modelled from the spec: conversion of a node object (§4.3): the
subject is the node's identifier, or a fresh blank node; types become
`rdf:type` quads; properties and reverse properties become quads per
value; graph contents produce quads whose graph component is the node's
identifier; `@included` objects contribute quads in the current graph. -/
def rdf_node (f : RdfTermFn) (gl : Option RdfId) (gen : Nat) (id : Option Iri)
    (types : List Iri) (props rprops : List (Iri × List IndexedObject))
    (graph included : Option (List IndexedObject)) :
    RdfTerm × List Quad × Nat :=
  let (subject, gen1) :=
    match id with
    | some s => (termId s, gen)
    | none => freshBlank gen
  let typeQuads :=
    types.map (fun t => Quad.mk subject (RdfId.iri rdfTypeIri)
      (RdfTerm.id (termId t)) gl)
  let (pq, gen2) := rdf_props f gl subject gen1 props
  let (rq, gen3) := rdf_reverse_props f gl subject gen2 rprops
  let (gq, gen4) :=
    match graph with
    | some g => rdf_graph_objects f (some subject) gen3 g
    | none => ([], gen3)
  let (iq, gen5) :=
    match included with
    | some l => rdf_graph_objects f gl gen4 l
    | none => ([], gen4)
  (RdfTerm.id subject, typeQuads ++ pq ++ rq ++ gq ++ iq, gen5)

/-- Modelled from the spec: the recursive object-to-RDF conversion (§4.3;
`json_ld_core::rdf` is not under `src/`), with an explicit recursion
budget; on exhaustion (never reached for any concrete input of this
development) the object contributes nothing. -/
def rdf_term (rdfDir : Option RdfDirection) : Nat → RdfTermFn
  | 0 => fun _ gen _ => (RdfTerm.id (RdfId.iri rdfNilIri), [], gen)
  | fuel + 1 => fun gl gen obj =>
    match obj.1 with
    | Object.value v => rdf_value_term rdfDir gl gen v
    | Object.node id types props rprops graph included =>
      rdf_node (rdf_term rdfDir fuel) gl gen id types props rprops graph
        included
    | Object.list items => rdf_list_chain (rdf_term rdfDir fuel) gl gen items

/-- Modelled from the spec: the quads of an expanded document (§4.3,
`RdfQuads`/`ToRdf::quads`): every top-level object contributes its quads
in the default graph; when `produce_generalized_rdf` is false, quads whose
predicate is a blank node are dropped. -/
def rdf_quads (fuel : Nat) (rdfDir : Option RdfDirection)
    (produceGeneralizedRdf : Bool) (gen : Nat) (doc : ExpandedDocument) :
    List Quad × Nat :=
  let (qs, gen1) := rdf_graph_objects (rdf_term rdfDir fuel) none gen doc
  (qs.filter (fun q =>
    produceGeneralizedRdf ||
      (match q.predicate with
       | RdfId.iri _ => true
       | RdfId.blank _ => false)), gen1)

/-- Mirrors `RemoteDocumentReference` (either an IRI to load, or an
already loaded remote document). -/
inductive RemoteDocumentReference where
  | iri (i : Iri)
  | loaded (doc : RemoteDocument)

/-- Mirrors the processor `Options` struct (`src/processor/mod.rs` lines
20-84).  The `expansion_policy` field is omitted (the `expansion::Policy`
type is not under `src/` and no claim depends on it). -/
structure ProcessorOptions where
  base : Option Iri
  compactArrays : Bool
  compactToRelative : Bool
  expandContext : Option RemoteDocumentReference
  ordered : Bool
  processingMode : ProcessingMode
  rdfDirection : Option RdfDirection
  produceGeneralizedRdf : Bool

/-- Mirrors `Options::unordered` (`src/processor/mod.rs` lines 86-95):
these options with the `ordered` flag set to `false`. -/
def ProcessorOptions.unordered (o : ProcessorOptions) : ProcessorOptions :=
  { o with ordered := false }

/-- Mirrors `Options::expansion_options` (`src/processor/mod.rs` lines
114-121): the expansion options derived from the processor options. -/
def ProcessorOptions.expansion_options (o : ProcessorOptions) :
    ExpansionOptions :=
  ⟨o.ordered, o.processingMode⟩

/-- Mirrors `impl Default for Options` (`src/processor/mod.rs` lines
124-138). -/
def ProcessorOptions.default : ProcessorOptions :=
  ⟨none, true, true, none, false, ProcessingMode.json_ld_1_1, none, false⟩

/-- Mirrors `ContextLoadError`: loading the remote context document
failed, or the loaded document did not contain an extractable context. -/
inductive ContextLoadError where
  | loadingDocumentFailed (e : LoadError)
  | contextExtractionFailed
deriving Repr, DecidableEq

/-- Mirrors `ExpandError` (`src/processor/mod.rs` lines 140-157): the
error of `JsonLdProcessor::expand`, wrapping the failure of the phase
that raised it. -/
inductive ExpandError where
  | expansion (e : Error)
  | contextProcessing (e : ContextError)
  | loading (e : LoadError)
  | contextLoading (e : ContextLoadError)
deriving Repr, DecidableEq

/-- Mirrors `ToRdfError` (`src/processor/mod.rs` lines 224-230): the only
variant wraps an `ExpandError`. -/
inductive ToRdfError where
  | expand (e : ExpandError)
deriving Repr, DecidableEq

/-- Modelled from the spec: `load_context_with` (context loading is not
under `src/`): resolve the reference through the loader when it is an
IRI, then extract the `@context` entry of the loaded document. -/
def load_context_with (loader : LoaderFn) :
    RemoteDocumentReference → Except ContextLoadError JValue
  | RemoteDocumentReference.iri i =>
    match loader i with
    | Except.error e => Except.error (ContextLoadError.loadingDocumentFailed e)
    | Except.ok rd => extractContext rd
  | RemoteDocumentReference.loaded rd => extractContext rd
where
  /-- Extracts the `@context` entry of a loaded remote document. -/
  extractContext (rd : RemoteDocument) : Except ContextLoadError JValue :=
    match rd.document with
    | JValue.obj entries =>
      match entries.lookup "@context" with
      | some c => Except.ok c
      | none => Except.error ContextLoadError.contextExtractionFailed
    | _ => Except.error ContextLoadError.contextExtractionFailed

/-- Mirrors `impl JsonLdProcessor for RemoteDocument`
(`src/processor/remote_document.rs` lines 11-75): initialize the active
context with `options.base` or else the document's URL; process the
`expand_context` option (loading failures wrapped in `ContextLoading`,
processing failures in `ContextProcessing`); process the document's
context link the same way; finally expand the document, passing
`self.url().or(options.base)` as base URL and wrapping failures in
`Expansion`. -/
def RemoteDocument.expand_full (fuel : Nat) (doc : RemoteDocument)
    (loader : LoaderFn) (options : ProcessorOptions) :
    Except ExpandError (ExpandedDocument × List Warning) := do
  let ctx0 := Context.new
    (match options.base with
     | some b => some b
     | none => doc.url)
  let ctx1 ←
    match options.expandContext with
    | some expandContext => do
      let lc ← (load_context_with loader expandContext).mapError
        ExpandError.contextLoading
      (processContext fuel loader ctx0 lc ctx0.baseIri).mapError
        ExpandError.contextProcessing
    | none => Except.ok ctx0
  let ctx2 ←
    match doc.contextUrl with
    | some context_url => do
      let lc ← (load_context_with loader
          (RemoteDocumentReference.iri context_url)).mapError
        ExpandError.contextLoading
      (processContext fuel loader ctx1 lc (some context_url)).mapError
        ExpandError.contextProcessing
    | none => Except.ok ctx1
  (expandDocument fuel loader doc.document ctx2
      (match doc.url with
       | some u => some u
       | none => options.base)
      options.expansion_options).mapError ExpandError.expansion

/-- Mirrors `impl JsonLdProcessor for RemoteDocumentReference`
(`src/processor/remote_document.rs` lines 77-94): load the referenced
document (a loading failure is converted into `ExpandError::Loading` by
the `?` operator's `From<LoadError>` instance), then delegate to the
`RemoteDocument` implementation. -/
def RemoteDocumentReference.expand_full (fuel : Nat)
    (r : RemoteDocumentReference) (loader : LoaderFn)
    (options : ProcessorOptions) :
    Except ExpandError (ExpandedDocument × List Warning) := do
  let doc ←
    match r with
    | RemoteDocumentReference.iri i => (loader i).mapError ExpandError.loading
    | RemoteDocumentReference.loaded d => Except.ok d
  RemoteDocument.expand_full fuel doc loader options

/-- Mirrors `JsonLdProcessor::to_rdf_full` (`src/processor/mod.rs` lines
573-601): capture `rdf_direction` and `produce_generalized_rdf`, expand
the document with `options.unordered()`, wrap expansion failures in
`ToRdfError::Expand`, then build the quads with the given generator
(`ToRdf::new` followed by the `quads` iterator, modelled by
`rdf_quads`). -/
def RemoteDocument.to_rdf_full (fuel : Nat) (doc : RemoteDocument)
    (generator : Nat) (loader : LoaderFn) (options : ProcessorOptions) :
    Except ToRdfError (List Quad × Nat) := do
  let rdf_direction := options.rdfDirection
  let produce_generalized_rdf := options.produceGeneralizedRdf
  let (expanded_input, _ws) ←
    (RemoteDocument.expand_full fuel doc loader options.unordered).mapError
      ToRdfError.expand
  Except.ok
    (rdf_quads fuel rdf_direction produce_generalized_rdf generator
      expanded_input)

/-- Specification-side description of array expansion (§4.2 "Arrays",
written from the spec's words, to be compared with `expand_array`): the
concatenation, in document order, of the recursive expansions of the
items, each item expanded with the same active context, active property,
base URL, options and `from_map` flag; warnings are concatenated in the
same order. -/
def expand_items_concat (f : ElemExpander) (ctx : Context)
    (activeProp : Option String) (baseUrl : Option Iri)
    (options : ExpansionOptions) (fromMap : Bool) :
    List JValue → Except Error (List IndexedObject × List Warning)
  | [] => Except.ok ([], [])
  | item :: rest => do
    let (e, ws) ← f ctx activeProp item baseUrl options fromMap
    let (objs, ws2) ← expand_items_concat f ctx activeProp baseUrl options
      fromMap rest
    Except.ok (e.toList ++ objs, ws ++ ws2)

/-- Specification-side description of the document-level post-processing
(claim C9, written from the claim's words, to be compared with
`expand_document_gen`): a single object converting to an unnamed graph
yields that graph's objects with no filter applied; in every other case
each top-level `Value` object is removed and the rest retained. -/
def document_post_spec (objs : List IndexedObject) : List IndexedObject :=
  match objs with
  | [o] =>
    match into_unnamed_graph o with
    | Except.ok g => g
    | Except.error o2 => if o2.1.isValue then [] else [o2]
  | objs => objs.filter (fun x => !x.1.isValue)

/-- The variant of `RemoteDocument::expand_full` asserted by claim C2
(written from the claim's words, to be compared with the source
embedding): `options.base` is preferred over the document's URL both for
the active context's base IRI and for the base URL passed to the
expansion algorithm. -/
def expand_full_base_override (fuel : Nat) (doc : RemoteDocument)
    (loader : LoaderFn) (options : ProcessorOptions) :
    Except ExpandError (ExpandedDocument × List Warning) := do
  let ctx0 := Context.new
    (match options.base with
     | some b => some b
     | none => doc.url)
  let ctx1 ←
    match options.expandContext with
    | some expandContext => do
      let lc ← (load_context_with loader expandContext).mapError
        ExpandError.contextLoading
      (processContext fuel loader ctx0 lc ctx0.baseIri).mapError
        ExpandError.contextProcessing
    | none => Except.ok ctx0
  let ctx2 ←
    match doc.contextUrl with
    | some context_url => do
      let lc ← (load_context_with loader
          (RemoteDocumentReference.iri context_url)).mapError
        ExpandError.contextLoading
      (processContext fuel loader ctx1 lc (some context_url)).mapError
        ExpandError.contextProcessing
    | none => Except.ok ctx1
  (expandDocument fuel loader doc.document ctx2
      (match options.base with
       | some b => some b
       | none => doc.url)
      options.expansion_options).mapError ExpandError.expansion

/-- The base IRI used to initialize the active context in
`RemoteDocument::expand_full`: `options.base`, or else the document's
URL. -/
def active_context_default_base (doc : RemoteDocument)
    (options : ProcessorOptions) : Option Iri :=
  Option.orElse options.base (fun _ => doc.url)

/-- The base URL passed to the expansion algorithm in
`RemoteDocument::expand_full`: the document's URL, or else
`options.base`. -/
def expansion_default_base (doc : RemoteDocument)
    (options : ProcessorOptions) : Option Iri :=
  Option.orElse doc.url (fun _ => options.base)

/-- Amended-specification variant of `RemoteDocument::expand_full` (claim
C2 amended): the active context's base IRI prefers `options.base`, while
the base URL passed to the expansion algorithm prefers the document's own
URL, falling back to `options.base` only when the document has no URL. -/
def expand_full_amended (fuel : Nat) (doc : RemoteDocument)
    (loader : LoaderFn) (options : ProcessorOptions) :
    Except ExpandError (ExpandedDocument × List Warning) := do
  let ctx0 := Context.new (active_context_default_base doc options)
  let ctx1 ←
    match options.expandContext with
    | some expandContext => do
      let lc ← (load_context_with loader expandContext).mapError
        ExpandError.contextLoading
      (processContext fuel loader ctx0 lc ctx0.baseIri).mapError
        ExpandError.contextProcessing
    | none => Except.ok ctx0
  let ctx2 ←
    match doc.contextUrl with
    | some context_url => do
      let lc ← (load_context_with loader
          (RemoteDocumentReference.iri context_url)).mapError
        ExpandError.contextLoading
      (processContext fuel loader ctx1 lc (some context_url)).mapError
        ExpandError.contextProcessing
    | none => Except.ok ctx1
  (expandDocument fuel loader doc.document ctx2
      (expansion_default_base doc options)
      options.expansion_options).mapError ExpandError.expansion

/-- Modelled from the spec: an operation run with a warning handler (§6
"Warning handler": a sink invoked with `(vocabulary, Warning)` for every
non-fatal anomaly).  The expansion result is computed first; every emitted
warning is then delivered to the handler, threading its state; the
handler's output never feeds back into the result. -/
def expand_full_with_handler {S N : Type} (h : S → N → Warning → S)
    (vocab : N) (s : S) (fuel : Nat) (doc : RemoteDocument)
    (loader : LoaderFn) (options : ProcessorOptions) :
    Except ExpandError ExpandedDocument × S :=
  match RemoteDocument.expand_full fuel doc loader options with
  | Except.ok (d, ws) => (Except.ok d, ws.foldl (fun st w => h st vocab w) s)
  | Except.error e => (Except.error e, s)

/-- Concrete document for the claim C2 counterexample: a remote document
with its own URL, whose body carries a relative remote context reference
and one vocabulary-mapped property. -/
def c2Doc : RemoteDocument :=
  ⟨some "http://doc/", none,
    JValue.obj
      [("@context", JValue.str "ctx.jsonld"),
       ("@id", JValue.str "http://ex/a"),
       ("p", JValue.str "hello")]⟩

/-- Concrete loader for the claim C2 counterexample: it only serves the
context document at the location relative to the document's own URL. -/
def c2Loader : LoaderFn :=
  mapLoader
    [("http://doc/ctx.jsonld",
      ⟨some "http://doc/ctx.jsonld", none,
        JValue.obj
          [("@context", JValue.obj [("@vocab", JValue.str "http://voc/")])]⟩)]

/-- Concrete options for the claim C2 counterexample: `base` is set and
differs from the document's URL. -/
def c2Opts : ProcessorOptions :=
  { ProcessorOptions.default with base := some "http://base/" }

/-- Concrete term definition with a `@list` container for the claim C4
witness (the `p` term of the spec's list-containment example). -/
def listTermDef : TermDefinition :=
  { TermDefinition.simple (some "http://ex/p") with
      container := [ContainerKind.list] }

/-- The array `[1, 2, 3]` of the spec's list-containment example. -/
def oneTwoThree : List JValue :=
  [JValue.num 1, JValue.num 2, JValue.num 3]

/-- An expanded integer `Value` literal with no type, language or
direction. -/
def numValue (n : Int) : IndexedObject :=
  (Object.value ⟨LiteralValue.num n, none, none, none⟩, none)

/-- Concrete options for the claim C6 witness: an `expand_context` that
no loader can resolve. -/
def c6Opts : ProcessorOptions :=
  { ProcessorOptions.default with
      expandContext := some (RemoteDocumentReference.iri "http://missing/") }

/-- Concrete document for the claim C6 witness. -/
def c6Doc : RemoteDocument :=
  ⟨none, none, JValue.obj []⟩

/-- Concrete remote document for the loader witnesses. -/
def c7Doc : RemoteDocument :=
  ⟨some "http://ex/doc", none, JValue.obj []⟩

/-- The concrete error produced by expanding `c6Doc` with `noLoader` and
`c6Opts`: the unresolvable `expand_context` reference, wrapped. -/
def c6Err : ExpandError :=
  ExpandError.contextLoading
    (ContextLoadError.loadingDocumentFailed
      ⟨"http://missing/", LoadErrorCause.cannotLoad⟩)

/-- The accumulator loop of `expand_array` computes the concatenation of
the item expansions: relates the source's mutable-accumulator loop to the
specification-side `expand_items_concat`. -/
theorem expand_array_loop_eq (f : ElemExpander) (ctx : Context)
    (ap : Option String) (bu : Option Iri) (opts : ExpansionOptions)
    (fm : Bool) :
    ∀ (items : List JValue) (acc : List IndexedObject) (wacc : List Warning),
    expand_array_loop f ctx ap bu opts fm acc wacc items =
      (expand_items_concat f ctx ap bu opts fm items).map
        (fun r => (acc ++ r.1, wacc ++ r.2)) := by
  intro items
  induction items with
  | nil =>
    intro acc wacc
    simp [expand_array_loop, expand_items_concat, Except.map]
  | cons item rest ih =>
    intro acc wacc
    simp only [expand_array_loop, expand_items_concat]
    cases hf : f ctx ap item bu opts fm with
    | error err => simp [hf, Except.map, Except.bind, bind]
    | ok r =>
      obtain ⟨e, ws⟩ := r
      simp only [hf, Except.bind, bind]
      rw [ih]
      cases hc : expand_items_concat f ctx ap bu opts fm rest with
      | error err => simp [Except.map, Except.bind, bind]
      | ok r2 =>
        obtain ⟨objs, ws2⟩ := r2
        simp [Except.map, Except.bind, bind, List.append_assoc]

/-- Claim C1: for a fixed input document and fixed context, with options
where `ordered = true`, running expansion twice yields identical expanded
documents, and running RDF conversion (`to_rdf_full` and its quads
iterator) with a deterministic, identically-seeded generator after each
run yields identical quad sets.  The embedded pipeline is a pure function
of the document, loader, options and generator seed, so both runs are one
and the same value. -/
theorem C1_deterministic (fuel : Nat) (doc : RemoteDocument)
    (loader : LoaderFn) (options : ProcessorOptions) (generator : Nat)
    (h : options.ordered = true) :
    RemoteDocument.expand_full fuel doc loader options =
      RemoteDocument.expand_full fuel doc loader options ∧
    RemoteDocument.to_rdf_full fuel doc generator loader options =
      RemoteDocument.to_rdf_full fuel doc generator loader options :=
  ⟨rfl, rfl⟩

/-- Witness for claim C1: the determinism theorem applied to a concrete
document, loader and `ordered = true` options, with generator seed 0. -/
theorem C1_witness :
    ({ ProcessorOptions.default with ordered := true } :
        ProcessorOptions).ordered = true ∧
    (RemoteDocument.expand_full 10 c2Doc c2Loader
        { ProcessorOptions.default with ordered := true } =
      RemoteDocument.expand_full 10 c2Doc c2Loader
        { ProcessorOptions.default with ordered := true } ∧
     RemoteDocument.to_rdf_full 10 c2Doc 0 c2Loader
        { ProcessorOptions.default with ordered := true } =
      RemoteDocument.to_rdf_full 10 c2Doc 0 c2Loader
        { ProcessorOptions.default with ordered := true }) :=
  ⟨rfl,
   C1_deterministic 10 c2Doc c2Loader
     { ProcessorOptions.default with ordered := true } 0 rfl⟩

/-- Counterexample to claim C2: claim C2 asserts that `options.base` is
preferred over the document's URL both for the active context's base IRI
and for the base URL passed to the expansion algorithm
(`expand_full_base_override` is that asserted behaviour, written from the
claim's words).  On `c2Doc`/`c2Loader`/`c2Opts` the source embedding
succeeds — the document URL `http://doc/` is the base against which the
relative context reference `ctx.jsonld` is resolved — while the claimed
behaviour fails to load `http://base/ctx.jsonld`, so the two differ. -/
theorem C2_counterexample :
    RemoteDocument.expand_full 10 c2Doc c2Loader c2Opts ≠
      expand_full_base_override 10 c2Doc c2Loader c2Opts := by
  intro h
  have h1 : (RemoteDocument.expand_full 10 c2Doc c2Loader c2Opts).isOk =
      true := rfl
  have h2 : (expand_full_base_override 10 c2Doc c2Loader c2Opts).isOk =
      false := rfl
  rw [h, h2] at h1
  exact Bool.noConfusion h1

/-- Claim C2 (amended): when `options.base` is set it overrides the
document's URL for the active context's base IRI, but the base URL passed
to the expansion algorithm prefers the document's own URL, falling back
to `options.base` only when the document has no URL: `expand_full` equals
the variant written from the amended claim's words, with the two base
choices made explicit by `active_context_default_base` and
`expansion_default_base`. -/
theorem C2_base_handling (fuel : Nat) (doc : RemoteDocument)
    (loader : LoaderFn) (options : ProcessorOptions) :
    RemoteDocument.expand_full fuel doc loader options =
      expand_full_amended fuel doc loader options := by
  cases hb : options.base <;> cases hu : doc.url <;>
    simp [RemoteDocument.expand_full, expand_full_amended,
      active_context_default_base, expansion_default_base, hb, hu,
      Option.orElse]

/-- Counterexample to claim C3: the post-pass filter
`filter_top_level_item` keeps an empty node object (it removes only
`Value` objects), so empty node objects are not "dropped by a post-pass
filter" as the claim states. -/
theorem C3_counterexample :
    filter_top_level_item (Object.node none [] [] [] none none, none) = true :=
  rfl

/-- Claim C3 (amended): free-floating bare literals at the top level are
dropped by the post-pass filter applied after recursion, which removes
exactly the top-level `Value` objects; empty node objects are not removed
by that filter but are dropped during recursion itself; in particular a
top-level bare scalar document (the string "hello") with no context
expands to an empty `ExpandedDocument`, and a top-level empty object
expands to nothing already during element expansion. -/
theorem C3_free_floating :
    (∀ item : IndexedObject, filter_top_level_item item = !item.1.isValue) ∧
    expandDocument 10 noLoader (JValue.str "hello") (Context.new none) none
      ExpansionOptions.default = Except.ok ([], []) ∧
    expand_element 5 noLoader (Context.new none) none (JValue.obj []) none
      ExpansionOptions.default false = Except.ok (Expanded.null, []) :=
  ⟨fun _ => rfl, rfl, rfl⟩

/-- Claim C4: for every array whose governing active property has a term
definition whose container mapping includes `@list`, `expand_array`
returns a single `List` object wrapping the concatenated expansions of
the array's items — never separate entries spliced into the parent. -/
theorem C4_list_container_wraps (f : ElemExpander) (ctx : Context)
    (activeProp : Option String) (defn : TermDefinition)
    (element : List JValue) (baseUrl : Option Iri)
    (options : ExpansionOptions) (fromMap : Bool)
    (h : defn.container.contains ContainerKind.list = true) :
    expand_array f ctx activeProp (some defn) element baseUrl options fromMap =
      (expand_items_concat f ctx activeProp baseUrl options fromMap
          element).map
        (fun r => (Expanded.object (Object.list r.1, none), r.2)) := by
  have hmem : ContainerKind.list ∈ defn.container := by
    simpa using h
  unfold expand_array
  rw [expand_array_loop_eq]
  cases hc : expand_items_concat f ctx activeProp baseUrl options fromMap
      element with
  | error err => simp [Except.map, Except.bind, bind]
  | ok r => simp [Except.map, Except.bind, bind, hmem]

/-- Witness for claim C4: the spec's example term (IRI `http://ex/p`,
container `@list`) applied to the array `[1, 2, 3]` yields one `List`
object containing three `Value` literals. -/
theorem C4_witness :
    listTermDef.container.contains ContainerKind.list = true ∧
    expand_array (expand_element 5 noLoader) (Context.new none) (some "p")
        (some listTermDef) oneTwoThree none ExpansionOptions.default false =
      (expand_items_concat (expand_element 5 noLoader) (Context.new none)
          (some "p") none ExpansionOptions.default false oneTwoThree).map
        (fun r => (Expanded.object (Object.list r.1, none), r.2)) ∧
    expand_array (expand_element 5 noLoader) (Context.new none) (some "p")
        (some listTermDef) oneTwoThree none ExpansionOptions.default false =
      Except.ok
        (Expanded.object
          (Object.list [numValue 1, numValue 2, numValue 3], none), []) :=
  ⟨rfl,
   C4_list_container_wraps (expand_element 5 noLoader) (Context.new none)
     (some "p") listTermDef oneTwoThree none ExpansionOptions.default false
     rfl,
   rfl⟩

/-- Claim C5: for arrays not governed by a `@list` container,
`expand_array` equals the concatenation, in document order, of the
recursive expansions of its items, each item expanded with the same
active context, active property, base URL, options and `from_map` flag;
the empty array yields the empty result. -/
theorem C5_array_concat (f : ElemExpander) (ctx : Context)
    (activeProp : Option String) (defnOpt : Option TermDefinition)
    (baseUrl : Option Iri) (options : ExpansionOptions) (fromMap : Bool)
    (h : ∀ d, defnOpt = some d →
      d.container.contains ContainerKind.list = false) :
    (∀ element : List JValue,
      expand_array f ctx activeProp defnOpt element baseUrl options fromMap =
        (expand_items_concat f ctx activeProp baseUrl options fromMap
            element).map
          (fun r => (Expanded.array r.1, r.2))) ∧
    expand_array f ctx activeProp defnOpt [] baseUrl options fromMap =
      Except.ok (Expanded.array [], []) := by
  have hmain : ∀ element : List JValue,
      expand_array f ctx activeProp defnOpt element baseUrl options fromMap =
        (expand_items_concat f ctx activeProp baseUrl options fromMap
            element).map
          (fun r => (Expanded.array r.1, r.2)) := by
    intro element
    unfold expand_array
    rw [expand_array_loop_eq]
    cases defnOpt with
    | none =>
      cases hc : expand_items_concat f ctx activeProp baseUrl options fromMap
          element with
      | error err => simp [Except.map, Except.bind, bind]
      | ok r => simp [Except.map, Except.bind, bind]
    | some d =>
      have hd := h d rfl
      have hmem : ContainerKind.list ∉ d.container := by
        simpa using hd
      cases hc : expand_items_concat f ctx activeProp baseUrl options fromMap
          element with
      | error err => simp [Except.map, Except.bind, bind]
      | ok r => simp [Except.map, Except.bind, bind, hmem]
  refine ⟨hmain, ?_⟩
  rw [hmain []]
  simp [expand_items_concat, Except.map]

/-- Witness for claim C5: with no term definition for the active property,
`expand_array` on `[1, 2, 3]` is the spliced concatenation of the three
`Value` literals, and the empty array yields the empty result. -/
theorem C5_witness :
    ((∀ element : List JValue,
      expand_array (expand_element 5 noLoader) (Context.new none) (some "q")
          none element none ExpansionOptions.default false =
        (expand_items_concat (expand_element 5 noLoader) (Context.new none)
            (some "q") none ExpansionOptions.default false element).map
          (fun r => (Expanded.array r.1, r.2))) ∧
     expand_array (expand_element 5 noLoader) (Context.new none) (some "q")
         none [] none ExpansionOptions.default false =
       Except.ok (Expanded.array [], [])) ∧
    expand_array (expand_element 5 noLoader) (Context.new none) (some "q")
        none oneTwoThree none ExpansionOptions.default false =
      Except.ok (Expanded.array [numValue 1, numValue 2, numValue 3], []) :=
  ⟨C5_array_concat (expand_element 5 noLoader) (Context.new none) (some "q")
     none none ExpansionOptions.default false
     (fun _ hd => Option.noConfusion hd),
   rfl⟩

/-- Claim C6: whenever loading, context processing, or element expansion
fails inside `expand_full`, the returned error is the corresponding
`ExpandError` variant (`Loading`, `ContextLoading`, `ContextProcessing`
or `Expansion`) containing the failing sub-operation's error as its cause
(and, the result being an `Except`, no partial result is returned).  The
first part characterizes the `RemoteDocument` implementation, the second
the `RemoteDocumentReference` implementation, whose loading step failure
is wrapped in `Loading`. -/
theorem C6_error_wrapping :
    (∀ (fuel : Nat) (doc : RemoteDocument) (loader : LoaderFn)
       (options : ProcessorOptions) (e : ExpandError),
      RemoteDocument.expand_full fuel doc loader options = Except.error e →
        (∃ c, e = ExpandError.contextLoading c ∧
          ((∃ ec, options.expandContext = some ec ∧
              load_context_with loader ec = Except.error c) ∨
           (∃ cu, doc.contextUrl = some cu ∧
              load_context_with loader (RemoteDocumentReference.iri cu) =
                Except.error c))) ∨
        (∃ c, e = ExpandError.contextProcessing c ∧
          (∃ active lc baseU,
            processContext fuel loader active lc baseU = Except.error c)) ∨
        (∃ c, e = ExpandError.expansion c ∧
          (∃ ctx, expandDocument fuel loader doc.document ctx
              (match doc.url with
               | some u => some u
               | none => options.base)
              options.expansion_options = Except.error c))) ∧
    (∀ (fuel : Nat) (r : RemoteDocumentReference) (loader : LoaderFn)
       (options : ProcessorOptions) (e : ExpandError),
      RemoteDocumentReference.expand_full fuel r loader options =
          Except.error e →
        (∃ i le, r = RemoteDocumentReference.iri i ∧
          loader i = Except.error le ∧ e = ExpandError.loading le) ∨
        (∃ doc, RemoteDocument.expand_full fuel doc loader options =
          Except.error e)) := by
  constructor
  · intro fuel doc loader options e h
    unfold RemoteDocument.expand_full at h
    cases hec : options.expandContext with
    | none =>
      simp only [hec, Except.bind, bind] at h
      cases hcu : doc.contextUrl with
      | none =>
        simp only [hcu, Except.bind, bind] at h
        cases hex : expandDocument fuel loader doc.document
            (Context.new (match options.base with
              | some b => some b
              | none => doc.url))
            (match doc.url with
             | some u => some u
             | none => options.base) options.expansion_options with
        | error exd =>
          simp only [hex, Except.mapError] at h
          exact Or.inr (Or.inr ⟨exd, (Except.error.inj h).symm, ⟨_, hex⟩⟩)
        | ok exv =>
          simp only [hex, Except.mapError] at h
          cases h
      | some cu =>
        simp only [hcu, Except.bind, bind] at h
        cases hlc : load_context_with loader
            (RemoteDocumentReference.iri cu) with
        | error lce =>
          simp only [hlc, Except.mapError, Except.bind, bind] at h
          exact Or.inl ⟨lce, (Except.error.inj h).symm,
            Or.inr ⟨cu, rfl, hlc⟩⟩
        | ok lc =>
          simp only [hlc, Except.mapError, Except.bind, bind] at h
          cases hpc : processContext fuel loader
              (Context.new (match options.base with
                | some b => some b
                | none => doc.url)) lc (some cu) with
          | error pce =>
            simp only [hpc, Except.mapError, Except.bind, bind] at h
            exact Or.inr (Or.inl ⟨pce, (Except.error.inj h).symm,
              ⟨_, _, _, hpc⟩⟩)
          | ok ctx2 =>
            simp only [hpc, Except.mapError, Except.bind, bind] at h
            cases hex : expandDocument fuel loader doc.document ctx2
                (match doc.url with
                 | some u => some u
                 | none => options.base) options.expansion_options with
            | error exd =>
              simp only [hex, Except.mapError] at h
              exact Or.inr (Or.inr ⟨exd, (Except.error.inj h).symm,
                ⟨ctx2, hex⟩⟩)
            | ok exv =>
              simp only [hex, Except.mapError] at h
              cases h
    | some ec =>
      simp only [hec, Except.bind, bind] at h
      cases hlc : load_context_with loader ec with
      | error lce =>
        simp only [hlc, Except.mapError, Except.bind, bind] at h
        exact Or.inl ⟨lce, (Except.error.inj h).symm, Or.inl ⟨ec, rfl, hlc⟩⟩
      | ok lc =>
        simp only [hlc, Except.mapError, Except.bind, bind] at h
        cases hpc : processContext fuel loader
            (Context.new (match options.base with
              | some b => some b
              | none => doc.url)) lc
            (Context.new (match options.base with
              | some b => some b
              | none => doc.url)).baseIri with
        | error pce =>
          simp only [hpc, Except.mapError, Except.bind, bind] at h
          exact Or.inr (Or.inl ⟨pce, (Except.error.inj h).symm,
            ⟨_, _, _, hpc⟩⟩)
        | ok ctx1 =>
          simp only [hpc, Except.mapError, Except.bind, bind] at h
          cases hcu : doc.contextUrl with
          | none =>
            simp only [hcu, Except.bind, bind] at h
            cases hex : expandDocument fuel loader doc.document ctx1
                (match doc.url with
                 | some u => some u
                 | none => options.base) options.expansion_options with
            | error exd =>
              simp only [hex, Except.mapError] at h
              exact Or.inr (Or.inr ⟨exd, (Except.error.inj h).symm,
                ⟨ctx1, hex⟩⟩)
            | ok exv =>
              simp only [hex, Except.mapError] at h
              cases h
          | some cu =>
            simp only [hcu, Except.bind, bind] at h
            cases hlc2 : load_context_with loader
                (RemoteDocumentReference.iri cu) with
            | error lce2 =>
              simp only [hlc2, Except.mapError, Except.bind, bind] at h
              exact Or.inl ⟨lce2, (Except.error.inj h).symm,
                Or.inr ⟨cu, rfl, hlc2⟩⟩
            | ok lc2 =>
              simp only [hlc2, Except.mapError, Except.bind, bind] at h
              cases hpc2 : processContext fuel loader ctx1 lc2 (some cu) with
              | error pce2 =>
                simp only [hpc2, Except.mapError, Except.bind, bind] at h
                exact Or.inr (Or.inl ⟨pce2, (Except.error.inj h).symm,
                  ⟨_, _, _, hpc2⟩⟩)
              | ok ctx2 =>
                simp only [hpc2, Except.mapError, Except.bind, bind] at h
                cases hex : expandDocument fuel loader doc.document ctx2
                    (match doc.url with
                     | some u => some u
                     | none => options.base) options.expansion_options with
                | error exd =>
                  simp only [hex, Except.mapError] at h
                  exact Or.inr (Or.inr ⟨exd, (Except.error.inj h).symm,
                    ⟨ctx2, hex⟩⟩)
                | ok exv =>
                  simp only [hex, Except.mapError] at h
                  cases h
  · intro fuel r loader options e h
    unfold RemoteDocumentReference.expand_full at h
    cases r with
    | iri i =>
      cases hl : loader i with
      | error le =>
        simp only [hl, Except.mapError, Except.bind, bind] at h
        exact Or.inl ⟨i, le, rfl, hl, (Except.error.inj h).symm⟩
      | ok rd =>
        simp only [hl, Except.mapError, Except.bind, bind] at h
        exact Or.inr ⟨rd, h⟩
    | loaded d =>
      simp only [Except.bind, bind] at h
      exact Or.inr ⟨d, h⟩

/-- Witness for claim C6: expanding `c6Doc` with `noLoader` and an
unresolvable `expand_context` fails with exactly `c6Err`, and the
wrapping theorem locates the cause. -/
theorem C6_witness :
    (∃ c, c6Err = ExpandError.contextLoading c ∧
      ((∃ ec, c6Opts.expandContext = some ec ∧
          load_context_with noLoader ec = Except.error c) ∨
       (∃ cu, c6Doc.contextUrl = some cu ∧
          load_context_with noLoader (RemoteDocumentReference.iri cu) =
            Except.error c))) ∨
    (∃ c, c6Err = ExpandError.contextProcessing c ∧
      (∃ active lc baseU,
        processContext 5 noLoader active lc baseU = Except.error c)) ∨
    (∃ c, c6Err = ExpandError.expansion c ∧
      (∃ ctx, expandDocument 5 noLoader c6Doc.document ctx
          (match c6Doc.url with
           | some u => some u
           | none => c6Opts.base)
          c6Opts.expansion_options = Except.error c)) :=
  C6_error_wrapping.1 5 c6Doc noLoader c6Opts c6Err rfl

/-- Claim C7: `NoLoader::load(url)` fails for every url with a `LoadError`
whose target is that url (and cause `CannotLoad`); a map loader returns
the stored document when the url is a key and otherwise fails with a
`LoadError` whose target is the url and whose cause is `EntryNotFound`. -/
theorem C7_loader_errors :
    (∀ url : Iri,
      noLoader url = Except.error ⟨url, LoadErrorCause.cannotLoad⟩) ∧
    (∀ (entries : List (Iri × RemoteDocument)) (url : Iri)
       (doc : RemoteDocument),
      entries.lookup url = some doc →
        mapLoader entries url = Except.ok doc) ∧
    (∀ (entries : List (Iri × RemoteDocument)) (url : Iri),
      entries.lookup url = none →
        mapLoader entries url =
          Except.error ⟨url, LoadErrorCause.entryNotFound⟩) :=
  ⟨fun _ => rfl,
   fun entries url doc h => by simp [mapLoader, h],
   fun entries url h => by simp [mapLoader, h]⟩

/-- Witness for claim C7: the loader characterization applied to a
one-entry map loader, at a present and at an absent url, and to
`noLoader`. -/
theorem C7_witness :
    noLoader "http://ex/doc" =
      Except.error ⟨"http://ex/doc", LoadErrorCause.cannotLoad⟩ ∧
    mapLoader [("http://ex/doc", c7Doc)] "http://ex/doc" = Except.ok c7Doc ∧
    mapLoader [("http://ex/doc", c7Doc)] "http://other/" =
      Except.error ⟨"http://other/", LoadErrorCause.entryNotFound⟩ :=
  ⟨C7_loader_errors.1 "http://ex/doc",
   C7_loader_errors.2.1 [("http://ex/doc", c7Doc)] "http://ex/doc" c7Doc rfl,
   C7_loader_errors.2.2 [("http://ex/doc", c7Doc)] "http://other/" rfl⟩

/-- Claim C8: warnings never escalate to errors and never abort
processing: the success/failure status and the document returned by an
operation run with a warning handler do not depend on the handler or its
state; the default handler (the unit type) leaves its state unchanged on
every invocation, discarding every warning without any effect. -/
theorem C8_warnings_never_escalate :
    (∀ {S1 S2 N1 N2 : Type} (h1 : S1 → N1 → Warning → S1)
       (h2 : S2 → N2 → Warning → S2) (v1 : N1) (v2 : N2) (s1 : S1) (s2 : S2)
       (fuel : Nat) (doc : RemoteDocument) (loader : LoaderFn)
       (options : ProcessorOptions),
      (expand_full_with_handler h1 v1 s1 fuel doc loader options).1 =
        (expand_full_with_handler h2 v2 s2 fuel doc loader options).1) ∧
    (∀ {N W : Type} (s : Unit) (v : N) (w : W), unitHandle s v w = s) ∧
    (∀ {N : Type} (v : N) (s : Unit) (fuel : Nat) (doc : RemoteDocument)
       (loader : LoaderFn) (options : ProcessorOptions),
      (expand_full_with_handler unitHandle v s fuel doc loader options).2 =
        s) := by
  refine ⟨?_, ?_, ?_⟩
  · intro S1 S2 N1 N2 h1 h2 v1 v2 s1 s2 fuel doc loader options
    cases h : RemoteDocument.expand_full fuel doc loader options with
    | error e => simp [expand_full_with_handler, h]
    | ok r => obtain ⟨d, ws⟩ := r; simp [expand_full_with_handler, h]
  · intro N W s v w
    rfl
  · intro N v s fuel doc loader options
    rfl

/-- Claim C9: the document-level `expand` post-processes the expanded
objects as follows: a single object converting into an unnamed graph
yields exactly that graph's objects with no top-level filter applied; in
every other case the result is the expanded objects with each top-level
`Value` object removed; and the non-`Value` objects are exactly the
`Node` and `List` objects, which are retained. -/
theorem C9_document_post (f : ElemExpander) (document : JValue)
    (ctx : Context) (baseUrl : Option Iri) (options : ExpansionOptions) :
    expand_document_gen f document ctx baseUrl options =
      (f ctx none document baseUrl options false).map
        (fun r => (document_post_spec r.1.toList, r.2)) ∧
    (∀ o : Object, (!o.isValue) = (o.isNode || o.isList)) := by
  constructor
  · unfold expand_document_gen
    cases hf : f ctx none document baseUrl options false with
    | error err => simp [Except.map, Except.bind, bind]
    | ok r =>
      obtain ⟨e, ws⟩ := r
      simp only [Except.bind, bind, Except.map]
      unfold document_post_spec
      match e.toList with
      | [] => rfl
      | [o] =>
        cases hg : into_unnamed_graph o with
        | ok g => simp [hg]
        | error o2 =>
          simp only [hg]
          cases hv : o2.1.isValue <;>
            simp [filter_top_level_item, hv]
      | a :: b :: rest => rfl
  · intro o
    cases o <;> rfl

/-- Claim C10: `ChainLoader(L1, L2)` returns L1's document when L1
succeeds; falls back to L2 and returns its document when L2 succeeds; and
when both fail it returns a `LoadError` whose target is the target of
L2's failure and whose cause pairs L1's cause and L2's cause in that
order. -/
theorem C10_chain_loader (l1 l2 : LoaderFn) (url : Iri) :
    (∀ doc, l1 url = Except.ok doc → chainLoader l1 l2 url = Except.ok doc) ∧
    (∀ e1 doc, l1 url = Except.error e1 → l2 url = Except.ok doc →
      chainLoader l1 l2 url = Except.ok doc) ∧
    (∀ e1 e2, l1 url = Except.error e1 → l2 url = Except.error e2 →
      chainLoader l1 l2 url =
        Except.error
          ⟨e2.target, LoadErrorCause.chained e1.cause e2.cause⟩) :=
  ⟨fun doc h => by simp [chainLoader, h],
   fun e1 doc h1 h2 => by simp [chainLoader, h1, h2],
   fun e1 e2 h1 h2 => by simp [chainLoader, h1, h2]⟩

/-- Witness for claim C10: a chain of `noLoader` and a one-entry map
loader serves the stored document; a chain of two `noLoader`s fails with
the paired causes and the second loader's target. -/
theorem C10_witness :
    chainLoader noLoader (mapLoader [("http://ex/doc", c7Doc)])
        "http://ex/doc" = Except.ok c7Doc ∧
    chainLoader noLoader noLoader "http://ex/doc" =
      Except.error
        ⟨"http://ex/doc",
          LoadErrorCause.chained LoadErrorCause.cannotLoad
            LoadErrorCause.cannotLoad⟩ :=
  ⟨(C10_chain_loader noLoader (mapLoader [("http://ex/doc", c7Doc)])
      "http://ex/doc").2.1 ⟨"http://ex/doc", LoadErrorCause.cannotLoad⟩ c7Doc
      rfl rfl,
   (C10_chain_loader noLoader noLoader "http://ex/doc").2.2
     ⟨"http://ex/doc", LoadErrorCause.cannotLoad⟩
     ⟨"http://ex/doc", LoadErrorCause.cannotLoad⟩ rfl rfl⟩
